import Mathlib

/-!
Verification development for the financial-statement analysis pipeline in
`src/main.py`.  The pipeline pulls three accounting tables (income statement,
cash-flow statement, balance sheet), resolves line items by label, and derives
ratio series (margins, growth, cash-conversion cycle, working capital,
leverage, liquidity, interest coverage).

The embedding mirrors the pandas semantics the Python code relies on:
  * cell values are IEEE-like extended numbers (`FVal`): exact rationals plus
    `+inf`, `-inf` and `NaN`; division by zero does not raise, it yields an
    infinity (or NaN for 0/0), exactly as float division does in pandas;
  * a `Series` carries an index (the period axis); binary arithmetic is
    positional when the two indexes coincide and otherwise aligns on the
    sorted union of labels, filling unmatched labels with NaN;
  * `Series.sum` and `Series.mean` skip NaN entries (pandas `skipna=True`),
    and `mean` of an empty/all-NaN series is NaN;
  * a `DataFrame` is a column axis plus labelled rows; `loc` retrieves a row
    as a Series over the column axis, `sortCols` models
    `sort_index(axis=1)`, `lastCols n` models `.iloc[:, -n:]`.

The pipeline functions `get_data_safe`, `get_working_capital_safe` and
`run_full_analysis` are translated line by line from `src/main.py`.
Chart rendering, string formatting and the external data fetch are outside
the model: `run_full_analysis` takes the three already-materialized tables
and returns either the computed metric set or the error message produced by
the broad `except` handler (modelled as `Except String Metrics`; the only
statements inside the `try` block that can raise on well-formed tables are
the `.iloc[-1]` latest-period accesses, which raise `IndexError` on an
empty series).
-/

namespace StockAnalysis

/-- An IEEE-754-like extended value as produced by pandas float arithmetic:
an exact finite number, positive or negative infinity, or NaN. -/
inductive FVal where
  | num : ℚ → FVal
  | pinf : FVal
  | ninf : FVal
  | nan : FVal
deriving DecidableEq, Repr

namespace FVal

/-- Negation; NaN propagates. -/
def fneg : FVal → FVal
  | num a => num (-a)
  | pinf => ninf
  | ninf => pinf
  | nan => nan

/-- Addition with IEEE semantics: NaN propagates, `+inf + -inf = NaN`. -/
def fadd : FVal → FVal → FVal
  | nan, _ => nan
  | _, nan => nan
  | num a, num b => num (a + b)
  | pinf, ninf => nan
  | ninf, pinf => nan
  | pinf, _ => pinf
  | _, pinf => pinf
  | ninf, _ => ninf
  | _, ninf => ninf

/-- Subtraction, `a - b = a + (-b)`. -/
def fsub (a b : FVal) : FVal := fadd a (fneg b)

/-- Multiplication with IEEE semantics: NaN propagates, `0 * inf = NaN`. -/
def fmul : FVal → FVal → FVal
  | nan, _ => nan
  | _, nan => nan
  | num a, num b => num (a * b)
  | num a, pinf => if a = 0 then nan else if 0 < a then pinf else ninf
  | pinf, num a => if a = 0 then nan else if 0 < a then pinf else ninf
  | num a, ninf => if a = 0 then nan else if 0 < a then ninf else pinf
  | ninf, num a => if a = 0 then nan else if 0 < a then ninf else pinf
  | pinf, pinf => pinf
  | ninf, ninf => pinf
  | pinf, ninf => ninf
  | ninf, pinf => ninf

/-- Division with IEEE semantics: division by zero never raises; a nonzero
numerator over zero gives a signed infinity (the model's zero is +0), `0/0`
gives NaN, NaN propagates. -/
def fdiv : FVal → FVal → FVal
  | nan, _ => nan
  | _, nan => nan
  | num a, num b =>
      if b = 0 then (if a = 0 then nan else if 0 < a then pinf else ninf)
      else num (a / b)
  | num _, pinf => num 0
  | num _, ninf => num 0
  | pinf, num b => if b < 0 then ninf else pinf
  | ninf, num b => if b < 0 then pinf else ninf
  | pinf, pinf => nan
  | pinf, ninf => nan
  | ninf, pinf => nan
  | ninf, ninf => nan

/-- Absolute value; NaN propagates. -/
def fabs : FVal → FVal
  | num a => num |a|
  | pinf => pinf
  | ninf => pinf
  | nan => nan

end FVal

open FVal

/-- A pandas Series: an index of period keys and one value per key. -/
structure Series where
  index : List ℚ
  values : List FVal
deriving DecidableEq, Repr

namespace Series

/-- Label lookup; absent labels read as NaN (only used on the alignment
path, where pandas fills unmatched labels with NaN). -/
def getL (s : Series) (l : ℚ) : FVal :=
  match (s.index.zip s.values).find? (fun p => p.1 = l) with
  | some p => p.2
  | none => nan

/-- Insert a key into a sorted list of keys, ascending. -/
def insortKey (x : ℚ) : List ℚ → List ℚ
  | [] => [x]
  | y :: ys => if x ≤ y then x :: y :: ys else y :: insortKey x ys

/-- Sort a list of keys ascending (models `pandas.Index.union` ordering). -/
def sortKeys (l : List ℚ) : List ℚ := l.foldr insortKey []

/-- Element-wise binary operation with pandas alignment: positional when the
two indexes are identical, otherwise over the sorted, de-duplicated union of
labels (an `f` that propagates NaN then fills unmatched labels with NaN,
since `getL` reads them as NaN). -/
def binop (f : FVal → FVal → FVal) (s t : Series) : Series :=
  if s.index = t.index then ⟨s.index, List.zipWith f s.values t.values⟩
  else
    let u := sortKeys ((s.index ++ t.index).dedup)
    ⟨u, u.map (fun l => f (s.getL l) (t.getL l))⟩

/-- `s + t`. -/
def add (s t : Series) : Series := binop fadd s t

/-- `s - t`. -/
def sub (s t : Series) : Series := binop fsub s t

/-- `s / t`. -/
def div (s t : Series) : Series := binop fdiv s t

/-- `s * c` for a scalar `c` (e.g. `* 100`, `* 365`). -/
def scale (s : Series) (c : ℚ) : Series :=
  ⟨s.index, s.values.map (fun v => fmul v (num c))⟩

/-- `s.abs()`. -/
def sAbs (s : Series) : Series := ⟨s.index, s.values.map fabs⟩

/-- `s.fillna(0)`: NaN cells become 0, everything else is kept. -/
def fillna0 (s : Series) : Series :=
  ⟨s.index, s.values.map (fun v => if v = nan then num 0 else v)⟩

/-- `s.sum()` with pandas `skipna=True`: NaN entries are skipped and the
empty sum is 0. -/
def sum (s : Series) : FVal :=
  s.values.foldl (fun acc v => if v = nan then acc else fadd acc v) (num 0)

/-- `s.mean()` with pandas `skipna=True`: the mean of the non-NaN entries,
NaN when there are none. -/
def mean (s : Series) : FVal :=
  let vs := s.values.filter (fun v => v ≠ nan)
  if vs.length = 0 then nan
  else fdiv (vs.foldl fadd (num 0)) (num (vs.length : ℚ))

/-- `s.pct_change()`: NaN at the first position, `v[t]/v[t-1] - 1` after
(the pipeline only applies it to NaN-free series, so no forward-fill is
involved). -/
def pct_change (s : Series) : Series :=
  ⟨s.index,
    match s.values with
    | [] => []
    | vs@(_ :: rest) => nan :: List.zipWith (fun cur prev => fsub (fdiv cur prev) (num 1)) rest vs⟩

/-- `s.iloc[-1]`, as an option: `none` models the `IndexError` raised on an
empty series. -/
def lastVal (s : Series) : Option FVal := s.values.getLast?

end Series

/-- A pandas DataFrame as the pipeline uses it: a column axis of period keys
and labelled rows, each row holding one value per column. -/
structure DataFrame where
  cols : List ℚ
  rows : List (String × List FVal)
deriving DecidableEq, Repr

namespace DataFrame

/-- `k in df.index`: is there a row labelled `k`? -/
def hasRow (df : DataFrame) (k : String) : Bool :=
  df.rows.any (fun r => r.1 = k)

/-- `df.loc[k]`: the row labelled `k` as a Series over the column axis
(first match; row labels are assumed unique as in the vendor's tables). -/
def loc (df : DataFrame) (k : String) : Series :=
  ⟨df.cols,
    match df.rows.find? (fun r => r.1 = k) with
    | some r => r.2
    | none => []⟩

/-- Insertion step for sorting (key, value) cells of one row by column key;
comparing keys only, so every row of a table is permuted identically. -/
def insortCell (x : ℚ × FVal) : List (ℚ × FVal) → List (ℚ × FVal)
  | [] => [x]
  | y :: ys => if x.1 ≤ y.1 then x :: y :: ys else y :: insortCell x ys

/-- Sort one row's cells ascending by column key. -/
def sortCells (l : List (ℚ × FVal)) : List (ℚ × FVal) := l.foldr insortCell []

/-- `df.sort_index(axis=1)`: columns sorted ascending, every row permuted
accordingly. -/
def sortCols (df : DataFrame) : DataFrame :=
  ⟨Series.sortKeys df.cols,
   df.rows.map (fun r => (r.1, (sortCells (df.cols.zip r.2)).map Prod.snd))⟩

/-- `df.iloc[:, -n:]`: keep the last `n` columns (all of them when there are
fewer than `n`). -/
def lastCols (df : DataFrame) (n : ℕ) : DataFrame :=
  ⟨df.cols.drop (df.cols.length - n),
   df.rows.map (fun r => (r.1, r.2.drop (df.cols.length - n)))⟩

/-- Shape invariant of a pandas DataFrame: every row has exactly one value
per column. -/
def WF (df : DataFrame) : Prop :=
  ∀ r ∈ df.rows, r.2.length = df.cols.length

instance (df : DataFrame) : Decidable df.WF := by
  unfold WF; infer_instance

end DataFrame

/-- `get_data_safe(df, keys)` from src/main.py: walk the candidate labels in
order; the first label present in the row index wins and its row is returned
with NaN filled to 0; if no label is present, return an all-zero series over
the table's column axis. -/
def get_data_safe (df : DataFrame) (keys : List String) : Series :=
  match keys.find? (fun k => df.hasRow k) with
  | some k => (df.loc k).fillna0
  | none => ⟨df.cols, List.replicate df.cols.length (num 0)⟩

/-- `get_working_capital_safe(bs_stmt)` from src/main.py: resolve current
assets and current liabilities; when a total sums to exactly zero rebuild it
from sub-items (cash + receivables + inventory, resp. payables + taxes);
return `ca - cl`. -/
def get_working_capital_safe (bs : DataFrame) : Series :=
  let ca0 := get_data_safe bs ["Total Current Assets", "Current Assets"]
  let cl0 := get_data_safe bs ["Total Current Liabilities", "Current Liabilities"]
  let ca :=
    if ca0.sum = num 0 then
      let cash := get_data_safe bs ["Cash And Cash Equivalents", "Cash Cash Equivalents And Short Term Investments"]
      let rec0 := get_data_safe bs ["Net Receivables", "Receivables"]
      let inv := get_data_safe bs ["Inventory"]
      (cash.add rec0).add inv
    else ca0
  let cl :=
    if cl0.sum = num 0 then
      let ap := get_data_safe bs ["Accounts Payable"]
      let tax := get_data_safe bs ["Tax Liabilities", "Income Tax Payable"]
      ap.add tax
    else cl0
  ca.sub cl

/-- `rev = get_data_safe(is_stmt, ['Total Revenue'])`. -/
def revOf (t : DataFrame) : Series := get_data_safe t ["Total Revenue"]

/-- `net_income = get_data_safe(is_stmt, ['Net Income'])`. -/
def netIncomeOf (t : DataFrame) : Series := get_data_safe t ["Net Income"]

/-- `gp = get_data_safe(is_stmt, ['Gross Profit'])`. -/
def gpOf (t : DataFrame) : Series := get_data_safe t ["Gross Profit"]

/-- `rev_growth = rev.pct_change() * 100`. -/
def revGrowthOf (t : DataFrame) : Series := ((revOf t).pct_change).scale 100

/-- `(gp/rev)*100`, the gross-margin trace of the profitability chart. -/
def grossMarginOf (t : DataFrame) : Series := ((gpOf t).div (revOf t)).scale 100

/-- `(net_income/rev)*100`, the net-margin trace. -/
def netMarginOf (t : DataFrame) : Series := ((netIncomeOf t).div (revOf t)).scale 100

/-- `cogs = get_data_safe(is_stmt, ['Cost Of Revenue'])`. -/
def cogsOf (t : DataFrame) : Series := get_data_safe t ["Cost Of Revenue"]

/-- `receivables = get_data_safe(bs_stmt, ['Net Receivables', 'Receivables'])`. -/
def receivablesOf (bs : DataFrame) : Series := get_data_safe bs ["Net Receivables", "Receivables"]

/-- `inventory = get_data_safe(bs_stmt, ['Inventory'])`. -/
def inventoryOf (bs : DataFrame) : Series := get_data_safe bs ["Inventory"]

/-- `payables = get_data_safe(bs_stmt, ['Accounts Payable'])`. -/
def payablesOf (bs : DataFrame) : Series := get_data_safe bs ["Accounts Payable"]

/-- `(cogs if cogs.mean() != 0 else rev)`: the shared denominator of DIO and
DPO.  Note Python's `nan != 0` is `True`, so an all-NaN / empty COGS series
selects COGS, not revenue. -/
def cogsOrRev (t : DataFrame) : Series :=
  if (cogsOf t).mean ≠ num 0 then cogsOf t else revOf t

/-- `dso = (receivables / rev) * 365`. -/
def dsoOf (t bs : DataFrame) : Series := ((receivablesOf bs).div (revOf t)).scale 365

/-- `dio = (inventory / (cogs if cogs.mean() != 0 else rev)) * 365`. -/
def dioOf (t bs : DataFrame) : Series := ((inventoryOf bs).div (cogsOrRev t)).scale 365

/-- `dpo = (payables / (cogs if cogs.mean() != 0 else rev)) * 365`. -/
def dpoOf (t bs : DataFrame) : Series := ((payablesOf bs).div (cogsOrRev t)).scale 365

/-- `c2c_cycle = dso + dio - dpo`. -/
def c2cOf (t bs : DataFrame) : Series := ((dsoOf t bs).add (dioOf t bs)).sub (dpoOf t bs)

/-- `assets = get_data_safe(bs_stmt, ['Total Assets'])`. -/
def assetsOf (bs : DataFrame) : Series := get_data_safe bs ["Total Assets"]

/-- `liab = get_data_safe(bs_stmt, ['Total Liabilities Net Minority Interest', 'Total Liabilities'])`. -/
def liabOf (bs : DataFrame) : Series :=
  get_data_safe bs ["Total Liabilities Net Minority Interest", "Total Liabilities"]

/-- `equity = get_data_safe(bs_stmt, ['Stockholders Equity'])`. -/
def equityOf (bs : DataFrame) : Series := get_data_safe bs ["Stockholders Equity"]

/-- `ebit = get_data_safe(is_stmt, ['EBIT'])`. -/
def ebitOf (t : DataFrame) : Series := get_data_safe t ["EBIT"]

/-- `int_exp = get_data_safe(is_stmt, ['Interest Expense']).abs()`. -/
def intExpOf (t : DataFrame) : Series := (get_data_safe t ["Interest Expense"]).sAbs

/-- `debt_ratio = (liab / assets) * 100`. -/
def debtRatioOf (bs : DataFrame) : Series := ((liabOf bs).div (assetsOf bs)).scale 100

/-- `equity_mult = assets / equity`. -/
def equityMultOf (bs : DataFrame) : Series := (assetsOf bs).div (equityOf bs)

/-- `current_ratio = CA / CL` resolved directly from the balance sheet. -/
def currentRatioOf (bs : DataFrame) : Series :=
  (get_data_safe bs ["Total Current Assets", "Current Assets"]).div
    (get_data_safe bs ["Total Current Liabilities", "Current Liabilities"])

/-- `int_coverage = ebit / int_exp if int_exp.mean() != 0 else
pd.Series([None]*len(years))`: `none` models the all-`None` placeholder
series produced when the (absolute) interest-expense series has mean
exactly 0.  There is no flooring of the denominator. -/
def intCoverageOf (t : DataFrame) : Option Series :=
  if (intExpOf t).mean ≠ num 0 then some ((ebitOf t).div (intExpOf t)) else none

/-- `s.iloc[-1]` as the pipeline uses it: the last value, or the
`IndexError` that the broad `except` handler turns into an error banner. -/
def lastE (s : Series) : Except String FVal :=
  match s.values.getLast? with
  | some v => Except.ok v
  | none => Except.error "IndexError: single positional indexer is out-of-bounds"

/-- Everything `run_full_analysis` derives from the three statements (the
chart-only traces that cannot fail are included where a claim touches them;
`intCov = none` models the all-`None` coverage series). -/
structure Metrics where
  periodAxis : List ℚ
  revGrowth : Series
  grossMargin : Series
  netMargin : Series
  dsoDays : Series
  dioDays : Series
  dpoDays : Series
  c2c : Series
  workingCap : Series
  ocfNiLast : FVal
  fcfNiLast : FVal
  debtRSeries : Series
  equityMult : Series
  currentRSeries : Series
  intCov : Option Series
  equityMultLast : FVal
  intCovLast : Option FVal
  currentRLast : FVal
deriving DecidableEq, Repr

/-- `run_full_analysis(ticker)` from src/main.py, starting after the data
fetch: the three raw tables are sorted by period and truncated to the last
10 columns, every metric series is derived, and the four latest-period
`.iloc[-1]` reads are performed in source order (lines 154, 155, 179, 180,
182).  The whole body runs inside one broad `try/except`; `Except.error`
models the `st.error` banner that replaces the report when any of those
reads raises `IndexError`.  The valuation chart, the chart-only expressions
(`working_capital.diff()`, `rev/inventory`, `rev/receivables` and the
`pe_list` comprehension, which is membership-guarded) and all rendering are
total and are not part of the returned record unless a claim touches them. -/
def run_full_analysis (raw_is raw_cf raw_bs : DataFrame) : Except String Metrics := do
  let is_stmt := (raw_is.sortCols).lastCols 10
  let cf_stmt := (raw_cf.sortCols).lastCols 10
  let bs_stmt := (raw_bs.sortCols).lastCols 10
  let years := is_stmt.cols
  let ocf := get_data_safe cf_stmt ["Operating Cash Flow"]
  let capex := get_data_safe cf_stmt ["Capital Expenditure"]
  let fcf := ocf.add capex
  let ocfLast ← lastE ocf
  let niLast ← lastE (netIncomeOf is_stmt)
  let fcfLast ← lastE fcf
  let niLastB ← lastE (netIncomeOf is_stmt)
  let emLast ← lastE (equityMultOf bs_stmt)
  let icLast : Option FVal ←
    match intCoverageOf is_stmt with
    | some s => do
        let v ← lastE s
        pure (some v)
    | none =>
        if years.isEmpty then
          Except.error "IndexError: single positional indexer is out-of-bounds"
        else pure none
  let crLast ← lastE (currentRatioOf bs_stmt)
  pure
    { periodAxis := years
      revGrowth := revGrowthOf is_stmt
      grossMargin := grossMarginOf is_stmt
      netMargin := netMarginOf is_stmt
      dsoDays := dsoOf is_stmt bs_stmt
      dioDays := dioOf is_stmt bs_stmt
      dpoDays := dpoOf is_stmt bs_stmt
      c2c := c2cOf is_stmt bs_stmt
      workingCap := get_working_capital_safe bs_stmt
      ocfNiLast := fdiv ocfLast niLast
      fcfNiLast := fdiv fcfLast niLastB
      debtRSeries := debtRatioOf bs_stmt
      equityMult := equityMultOf bs_stmt
      currentRSeries := currentRatioOf bs_stmt
      intCov := intCoverageOf is_stmt
      equityMultLast := emLast
      intCovLast := icLast
      currentRLast := crLast }

/-! ### Basic facts about the embedding -/

/-- Whether the analysis produced a report rather than the error banner. -/
def isOkE : Except String Metrics → Bool
  | Except.ok _ => true
  | Except.error _ => false

/-! ### Concrete tables used as test inputs -/

/-- An income table whose revenue is 0 while gross profit is positive. -/
def exZeroRev : DataFrame :=
  ⟨[2020], [("Total Revenue", [num 0]), ("Gross Profit", [num 5])]⟩

/-- A balance table whose first receivables alias has an all-missing row
while the second alias has data. -/
def exAllMissing : DataFrame :=
  ⟨[1], [("Net Receivables", [nan]), ("Receivables", [num 5])]⟩

/-- A table with no columns and no rows (the empty fetch result). -/
def exEmptyDF : DataFrame := ⟨[], []⟩

/-- A balance table with assets and equity but no liabilities row. -/
def exNoLiab : DataFrame :=
  ⟨[2020, 2021], [("Total Assets", [num 200, num 220]), ("Stockholders Equity", [num 80, num 90])]⟩

/-- An income table with positive EBIT and an all-zero interest expense. -/
def exZeroIntExp : DataFrame :=
  ⟨[1, 2], [("EBIT", [num 50, num 60]), ("Interest Expense", [num 0, num 0])]⟩

/-- A one-row table whose interest expense is all-zero. -/
def exZeroIntExpB : DataFrame := ⟨[1], [("Interest Expense", [num 0])]⟩

/-- An income table with revenue [100, 120] over two periods. -/
def exGrowth : DataFrame := ⟨[1, 2], [("Total Revenue", [num 100, num 120])]⟩

/-- A balance table with current assets 100, current liabilities 40 and a
non-zero cash balance of 10. -/
def exWcCash : DataFrame :=
  ⟨[1], [("Total Current Assets", [num 100]), ("Total Current Liabilities", [num 40]),
         ("Cash And Cash Equivalents", [num 10])]⟩

/-- An income table with revenue 100 and COGS 50. -/
def exC2cIs : DataFrame := ⟨[1], [("Total Revenue", [num 100]), ("Cost Of Revenue", [num 50])]⟩

/-- A balance table with receivables 20, inventory 10, payables 5. -/
def exC2cBs : DataFrame :=
  ⟨[1], [("Net Receivables", [num 20]), ("Inventory", [num 10]), ("Accounts Payable", [num 5])]⟩

/-- A one-period income table with every income field the pipeline reads. -/
def exIncomeOne : DataFrame :=
  ⟨[1], [("Total Revenue", [num 100]), ("Net Income", [num 10]), ("EBIT", [num 20]),
         ("Interest Expense", [num 2])]⟩

/-- A one-period cash-flow table. -/
def exCfOne : DataFrame :=
  ⟨[1], [("Operating Cash Flow", [num 15]), ("Capital Expenditure", [num (-5)])]⟩

/-- A one-period balance table. -/
def exBsOne : DataFrame :=
  ⟨[1], [("Total Assets", [num 200]), ("Stockholders Equity", [num 80]),
         ("Total Current Assets", [num 50]), ("Total Current Liabilities", [num 30])]⟩

/-- Modelled from the spec: the operating-working-capital formula
`owc = (current_assets - cash) - (current_liabilities - short_term_debt)`.
src/main.py computes no such quantity and resolves no short-term-debt
field at all, so the short-term-debt term here uses a plausible alias group
that simply resolves to zero on tables lacking such a row; the current
assets, current liabilities and cash alias groups are the ones the source
does use. -/
def owcSpecOf (bs : DataFrame) : Series :=
  ((get_data_safe bs ["Total Current Assets", "Current Assets"]).sub
      (get_data_safe bs ["Cash And Cash Equivalents", "Cash Cash Equivalents And Short Term Investments"])).sub
    ((get_data_safe bs ["Total Current Liabilities", "Current Liabilities"]).sub
      (get_data_safe bs ["Current Debt", "Short Term Debt"]))

/-- A statement table written as the rows before its `Interest Expense`
row, that row's values, and the rows after it. -/
def withIE (cols : List ℚ) (pre post : List (String × List FVal)) (v : List FVal) : DataFrame :=
  ⟨cols, pre ++ ("Interest Expense", v) :: post⟩

theorem isOkE_bind_iff {α : Type} (x : Except String α) (f : α → Except String Metrics) :
    isOkE (x >>= f) = true ↔ ∃ v, x = Except.ok v ∧ isOkE (f v) = true := by
  cases x <;> simp [isOkE, Bind.bind, Except.bind]

theorem isOkE_pure (m : Metrics) : isOkE (pure m) = true := rfl

theorem isOkE_error (e : String) : isOkE (Except.error e) = false := rfl

theorem lastE_eq_ok_iff (s : Series) (v : FVal) :
    lastE s = Except.ok v ↔ s.values.getLast? = some v := by
  unfold lastE
  cases h : s.values.getLast? <;> simp

theorem except_bind_eq_ok_iff {α β : Type} (x : Except String α) (f : α → Except String β)
    (v : β) : (x >>= f) = Except.ok v ↔ ∃ w, x = Except.ok w ∧ f w = Except.ok v := by
  cases x <;> simp [Bind.bind, Except.bind]

theorem except_pure_eq_ok_iff {α : Type} (w v : α) :
    (pure w : Except String α) = Except.ok v ↔ w = v := by
  constructor
  · intro h
    cases h
    rfl
  · intro h
    rw [h]
    rfl

theorem getLast?_some_of_ne_nil {α : Type} (l : List α) (h : l ≠ []) :
    ∃ v, l.getLast? = some v :=
  Option.isSome_iff_exists.mp (List.getLast?_isSome.mpr h)

theorem lastE_ok_iff (s : Series) : (∃ v, lastE s = Except.ok v) ↔ s.values ≠ [] := by
  unfold lastE
  cases h : s.values.getLast? with
  | none => simpa using List.getLast?_eq_none_iff.mp h
  | some v =>
      have : s.values ≠ [] := by
        intro he
        rw [he] at h
        simp at h
      simp [this]

theorem get_data_safe_index (df : DataFrame) (keys : List String) :
    (get_data_safe df keys).index = df.cols := by
  unfold get_data_safe
  cases keys.find? (fun k => df.hasRow k) <;> simp [DataFrame.loc, Series.fillna0]

theorem get_data_safe_length (df : DataFrame) (keys : List String) (h : df.WF) :
    (get_data_safe df keys).values.length = df.cols.length := by
  unfold get_data_safe
  cases hf : keys.find? (fun k => df.hasRow k) with
  | none => simp
  | some k =>
      have hk : df.hasRow k = true := by simpa using List.find?_some hf
      have : ∃ r, r ∈ df.rows ∧ (r.1 = k) := by
        simpa [DataFrame.hasRow] using hk
      obtain ⟨r, hr, _⟩ := this
      have hs : (df.rows.find? (fun r => r.1 = k)).isSome := by
        rw [List.find?_isSome]
        exact ⟨r, hr, by simp [*]⟩
      cases hfr : df.rows.find? (fun r => r.1 = k) with
      | none => rw [hfr] at hs; simp at hs
      | some r0 =>
          have hr0 : r0 ∈ df.rows := List.mem_of_find?_eq_some hfr
          simp [DataFrame.loc, Series.fillna0, hfr, h r0 hr0]

theorem binop_of_index_eq (f : FVal → FVal → FVal) (s t : Series) (h : s.index = t.index) :
    Series.binop f s t = ⟨s.index, List.zipWith f s.values t.values⟩ := by
  unfold Series.binop
  rw [if_pos h]

theorem sAbs_index (s : Series) : s.sAbs.index = s.index := rfl

theorem sAbs_length (s : Series) : s.sAbs.values.length = s.values.length := by
  simp [Series.sAbs]

theorem scale_values (s : Series) (c : ℚ) :
    (s.scale c).values = s.values.map (fun v => fmul v (num c)) := rfl

theorem insortKey_length (x : ℚ) (l : List ℚ) :
    (Series.insortKey x l).length = l.length + 1 := by
  induction l with
  | nil => simp [Series.insortKey]
  | cons y ys ih =>
      unfold Series.insortKey
      split <;> simp [ih]

theorem sortKeys_length (l : List ℚ) : (Series.sortKeys l).length = l.length := by
  induction l with
  | nil => rfl
  | cons x xs ih =>
      show (Series.insortKey x (Series.sortKeys xs)).length = xs.length + 1
      rw [insortKey_length, ih]

theorem insortCell_length (x : ℚ × FVal) (l : List (ℚ × FVal)) :
    (DataFrame.insortCell x l).length = l.length + 1 := by
  induction l with
  | nil => simp [DataFrame.insortCell]
  | cons y ys ih =>
      unfold DataFrame.insortCell
      split <;> simp [ih]

theorem sortCells_length (l : List (ℚ × FVal)) :
    (DataFrame.sortCells l).length = l.length := by
  induction l with
  | nil => rfl
  | cons x xs ih =>
      show (DataFrame.insortCell x (DataFrame.sortCells xs)).length = xs.length + 1
      rw [insortCell_length, ih]

theorem sortCols_cols_length (df : DataFrame) :
    df.sortCols.cols.length = df.cols.length := sortKeys_length df.cols

theorem sortCols_WF (df : DataFrame) (h : df.WF) : df.sortCols.WF := by
  intro r hr
  simp only [DataFrame.sortCols, List.mem_map] at hr
  obtain ⟨r0, hr0, rfl⟩ := hr
  simp only [List.length_map, sortCells_length, List.length_zip, h r0 hr0]
  show df.cols.length ⊓ df.cols.length = (Series.sortKeys df.cols).length
  rw [sortKeys_length, min_self]

theorem lastCols_WF (df : DataFrame) (n : ℕ) (h : df.WF) : (df.lastCols n).WF := by
  intro r hr
  simp only [DataFrame.lastCols, List.mem_map] at hr
  obtain ⟨r0, hr0, rfl⟩ := hr
  show (r0.2.drop (df.cols.length - n)).length = (df.cols.drop (df.cols.length - n)).length
  simp [h r0 hr0]

theorem lastCols_cols_length (df : DataFrame) (n : ℕ) :
    (df.lastCols n).cols.length = df.cols.length - (df.cols.length - n) := by
  simp [DataFrame.lastCols]

/-- The truncated-and-sorted table used by the pipeline has a nonempty
column axis exactly when the raw table does. -/
theorem trunc_cols_ne_nil (df : DataFrame) :
    ((df.sortCols).lastCols 10).cols ≠ [] ↔ df.cols ≠ [] := by
  rw [← List.length_pos_iff_ne_nil, ← List.length_pos_iff_ne_nil,
    lastCols_cols_length, sortCols_cols_length]
  omega

/-- When the first candidate alias is a row of the table, `get_data_safe`
returns that row, NaN-filled. -/
theorem get_data_safe_cons_found (df : DataFrame) (k : String) (rest : List String)
    (h : df.hasRow k = true) :
    get_data_safe df (k :: rest) = (df.loc k).fillna0 := by
  unfold get_data_safe
  rw [List.find?_cons_of_pos _ h]

/-- When no candidate alias is a row of the table, `get_data_safe` falls
through to the all-zero default series over the table's column axis. -/
theorem get_data_safe_all_absent (df : DataFrame) (keys : List String)
    (h : ∀ k ∈ keys, df.hasRow k = false) :
    get_data_safe df keys = ⟨df.cols, List.replicate df.cols.length (num 0)⟩ := by
  unfold get_data_safe
  have : keys.find? (fun k => df.hasRow k) = none := by
    rw [List.find?_eq_none]
    intro k hk
    simp [h k hk]
  rw [this]

theorem binop_index_of_eq (f : FVal → FVal → FVal) (s t : Series) (h : s.index = t.index) :
    (Series.binop f s t).index = s.index := by
  rw [binop_of_index_eq f s t h]

theorem binop_getElem (f : FVal → FVal → FVal) (s t : Series) (h : s.index = t.index)
    (i : ℕ) (a b : FVal) (ha : s.values[i]? = some a) (hb : t.values[i]? = some b) :
    (Series.binop f s t).values[i]? = some (f a b) := by
  rw [binop_of_index_eq f s t h]
  exact List.getElem?_zipWith_eq_some.mpr ⟨a, b, ha, hb, rfl⟩

theorem scale_index (s : Series) (c : ℚ) : (s.scale c).index = s.index := rfl

theorem scale_getElem (s : Series) (c : ℚ) (i : ℕ) (a : FVal)
    (ha : s.values[i]? = some a) :
    (s.scale c).values[i]? = some (fmul a (num c)) := by
  rw [scale_values, List.getElem?_map, ha]
  rfl

theorem get_data_safe_values_nil_iff (df : DataFrame) (keys : List String) (h : df.WF) :
    (get_data_safe df keys).values = [] ↔ df.cols = [] := by
  rw [← List.length_eq_zero, get_data_safe_length df keys h, List.length_eq_zero]

theorem binop_length (f : FVal → FVal → FVal) (s t : Series) (h : s.index = t.index) :
    (Series.binop f s t).values.length = min s.values.length t.values.length := by
  rw [binop_of_index_eq f s t h]
  exact List.length_zipWith f s.values t.values

theorem binop_get_data_safe_nil_iff (f : FVal → FVal → FVal) (df : DataFrame)
    (k1 k2 : List String) (h : df.WF) :
    (Series.binop f (get_data_safe df k1) (get_data_safe df k2)).values = [] ↔ df.cols = [] := by
  rw [← List.length_eq_zero,
    binop_length f _ _ (by rw [get_data_safe_index, get_data_safe_index]),
    get_data_safe_length df k1 h, get_data_safe_length df k2 h, min_self, List.length_eq_zero]

theorem intCoverage_series_nil_iff (t : DataFrame) (h : t.WF) :
    ((ebitOf t).div (intExpOf t)).values = [] ↔ t.cols = [] := by
  unfold ebitOf intExpOf Series.div
  have hidx : (get_data_safe t ["EBIT"]).index =
      ((get_data_safe t ["Interest Expense"]).sAbs).index := by
    rw [sAbs_index, get_data_safe_index, get_data_safe_index]
  rw [← List.length_eq_zero, binop_length fdiv _ _ hidx, get_data_safe_length t _ h,
    sAbs_length, get_data_safe_length t _ h, min_self, List.length_eq_zero]

theorem intCoverageOf_eq_some (t : DataFrame) (s : Series) (h : intCoverageOf t = some s) :
    s = (ebitOf t).div (intExpOf t) := by
  unfold intCoverageOf at h
  by_cases hm : (intExpOf t).mean ≠ num 0
  · rw [if_pos hm] at h
    exact ((Option.some.injEq _ _).mp h).symm
  · rw [if_neg hm] at h
    cases h

theorem foldl_fadd_zeros (l : List FVal) (hz : ∀ v ∈ l, v = num 0) (q : ℚ) :
    l.foldl fadd (num q) = num q := by
  induction l generalizing q with
  | nil => rfl
  | cons x xs ih =>
      have hx := hz x (by simp)
      subst hx
      show xs.foldl fadd (fadd (num q) (num 0)) = num q
      have : fadd (num q) (num 0) = num q := by simp [fadd]
      rw [this]
      exact ih (fun v hv => hz v (by simp [hv])) q


/-! ### C1 — division-by-zero policy of the ratio formulas -/

/-- C1 counterexample: the gross-margin ratio of a table whose revenue is 0
and whose gross profit is 5 contains `+inf`; no epsilon or 1.0 is
substituted for the zero denominator, so the claim that the output never
holds `inf` is false on this input. -/
theorem C1_counterexample :
    grossMarginOf exZeroRev = ⟨[2020], [FVal.pinf]⟩ ∧
      FVal.pinf ∈ (grossMarginOf exZeroRev).values := by
  constructor <;> decide

/-- C1 (amended): the ratio divisions never raise (they are total
functions), but there is no safe-division policy: whenever the resolved
revenue is 0 at a position where gross profit is positive, the gross-margin
series holds `+inf` at that position. -/
theorem C1_zero_denominator_yields_inf (t : DataFrame) (i : ℕ) (g : ℚ)
    (hr : (revOf t).values[i]? = some (num 0))
    (hg : (gpOf t).values[i]? = some (num g)) (hgpos : 0 < g) :
    (grossMarginOf t).values[i]? = some FVal.pinf := by
  have hidx : (gpOf t).index = (revOf t).index := by
    unfold gpOf revOf
    rw [get_data_safe_index, get_data_safe_index]
  have hdiv : ((gpOf t).div (revOf t)).values =
      List.zipWith fdiv (gpOf t).values (revOf t).values := by
    unfold Series.div
    rw [binop_of_index_eq _ _ _ hidx]
  have hzip : (List.zipWith fdiv (gpOf t).values (revOf t).values)[i]? =
      some (fdiv (num g) (num 0)) :=
    List.getElem?_zipWith_eq_some.mpr ⟨num g, num 0, hg, hr, rfl⟩
  have hval : fdiv (num g) (num 0) = FVal.pinf := by
    simp [fdiv, hgpos, hgpos.ne']
  unfold grossMarginOf
  rw [scale_values, List.getElem?_map, hdiv, hzip, hval]
  simp [fmul]

/-- C1 witness: the amended theorem applied to `exZeroRev` at position 0. -/
theorem C1_zero_denominator_yields_inf_witness :
    (revOf exZeroRev).values[0]? = some (num 0) ∧
      (grossMarginOf exZeroRev).values[0]? = some FVal.pinf :=
  ⟨by decide, C1_zero_denominator_yields_inf exZeroRev 0 5 (by decide) (by decide) (by decide)⟩

/-! ### C3 — field-resolution order -/

/-- C3 counterexample: with `Net Receivables` present but all-missing and
`Receivables` present with value 5, resolution returns the all-missing
first-alias row filled with zeros instead of skipping it and returning the
5 of the later alias as the claim requires. -/
theorem C3_counterexample :
    get_data_safe exAllMissing ["Net Receivables", "Receivables"] = ⟨[1], [num 0]⟩ ∧
      get_data_safe exAllMissing ["Net Receivables", "Receivables"] ≠ ⟨[1], [num 5]⟩ := by
  constructor <;> decide

/-- C3 (amended): resolution performs only exact label matches, alias by
alias, and the first alias present in the row index always wins: its row is
returned with missing cells filled to 0 even when every cell is missing.
There is no substring tier and no skipping of all-missing rows. -/
theorem C3_first_present_alias_wins (df : DataFrame) (k : String) (rest : List String)
    (h : df.hasRow k = true) :
    get_data_safe df (k :: rest) = (df.loc k).fillna0 :=
  get_data_safe_cons_found df k rest h

/-- C3 witness: the amended theorem on `exAllMissing`, whose first alias row
is all-missing and is nevertheless returned (as zeros). -/
theorem C3_first_present_alias_wins_witness :
    exAllMissing.hasRow "Net Receivables" = true ∧
      get_data_safe exAllMissing ["Net Receivables", "Receivables"] =
        (exAllMissing.loc "Net Receivables").fillna0 :=
  ⟨by decide, C3_first_present_alias_wins exAllMissing "Net Receivables" ["Receivables"] (by decide)⟩

/-! ### C4 — default series for unresolved fields -/

/-- C4 counterexample: for a table with no columns the default series has
length 0, not the 8 periods the claim requires. -/
theorem C4_counterexample :
    (get_data_safe exEmptyDF ["Total Revenue"]).values.length = 0 ∧
      (get_data_safe exEmptyDF ["Total Revenue"]).values.length ≠ 8 := by
  constructor <;> decide

/-- C4 (amended): when no alias is present in the row index, resolution
never raises and returns an all-zero series over the table's own column
axis — length equal to the number of columns, which is 0 (not 8) for a
table with no columns. -/
theorem C4_default_is_zero_series (df : DataFrame) (keys : List String)
    (h : ∀ k ∈ keys, df.hasRow k = false) :
    get_data_safe df keys = ⟨df.cols, List.replicate df.cols.length (num 0)⟩ :=
  get_data_safe_all_absent df keys h

/-- C4 witness: the amended theorem on the empty table, where the default
series is empty. -/
theorem C4_default_is_zero_series_witness :
    get_data_safe exEmptyDF ["Total Revenue"] =
      ⟨exEmptyDF.cols, List.replicate exEmptyDF.cols.length (num 0)⟩ :=
  C4_default_is_zero_series exEmptyDF ["Total Revenue"] (by decide)

/-! ### C5 — no fallback formula for total liabilities -/

/-- C5 counterexample: with the liabilities row absent but assets
[200, 220] and equity [80, 90] present, the resolved liabilities are
[0, 0] — not the claimed fallback `assets - equity = [120, 130]` — and the
debt-ratio series is [0, 0] percent, not [60, 59.1] percent. -/
theorem C5_counterexample :
    liabOf exNoLiab = ⟨[2020, 2021], [num 0, num 0]⟩ ∧
      debtRatioOf exNoLiab = ⟨[2020, 2021], [num 0, num 0]⟩ ∧
      liabOf exNoLiab ≠ ⟨[2020, 2021], [num 120, num 130]⟩ ∧
      debtRatioOf exNoLiab ≠ ⟨[2020, 2021], [num 60, num (650 / 11)]⟩ := by
  have hz : debtRatioOf exNoLiab = ⟨[2020, 2021], [num 0, num 0]⟩ := by
    simp [debtRatioOf, liabOf, assetsOf, get_data_safe, DataFrame.hasRow, DataFrame.loc,
      Series.fillna0, Series.div, Series.binop, Series.scale, FVal.fdiv, FVal.fmul, exNoLiab,
      List.find?, List.any]
  refine ⟨by decide, hz, by decide, ?_⟩
  rw [hz]
  intro hcon
  have := congrArg Series.values hcon
  simp at this

/-- C5 (amended): no fallback formula exists for total liabilities: when
neither liabilities alias is a row of the balance table, the resolved
liabilities series is identically zero over the table's column axis (and
the debt ratio is therefore 0, never assets − equity). -/
theorem C5_no_liab_fallback (bs : DataFrame)
    (h1 : bs.hasRow "Total Liabilities Net Minority Interest" = false)
    (h2 : bs.hasRow "Total Liabilities" = false) :
    liabOf bs = ⟨bs.cols, List.replicate bs.cols.length (num 0)⟩ := by
  unfold liabOf
  apply get_data_safe_all_absent
  intro k hk
  simp only [List.mem_cons, List.not_mem_nil, or_false] at hk
  rcases hk with rfl | rfl
  · exact h1
  · exact h2

/-- C5 witness: the amended theorem at `exNoLiab`. -/
theorem C5_no_liab_fallback_witness :
    liabOf exNoLiab = ⟨exNoLiab.cols, List.replicate exNoLiab.cols.length (num 0)⟩ :=
  C5_no_liab_fallback exNoLiab (by decide) (by decide)

/-! ### C6 — interest coverage on a zero interest expense -/

/-- C6 counterexample: for interest expense [0, 0] and EBIT [50, 60] the
code does not floor the denominator: the mean-zero guard short-circuits and
the coverage is the all-`None` placeholder (`none`), not a series of
large-but-finite values. -/
theorem C6_counterexample : intCoverageOf exZeroIntExp = none := by
  simp [intCoverageOf, intExpOf, get_data_safe, DataFrame.hasRow, DataFrame.loc,
    Series.fillna0, Series.sAbs, Series.mean, FVal.fabs, FVal.fadd, FVal.fdiv,
    exZeroIntExp, List.find?, List.any]

/-- C6 (amended): the interest-expense denominator is never floored: when
the resolved interest-expense row is non-empty and identically zero, its
(absolute-value) mean is exactly 0, the guard `int_exp.mean() != 0` fails,
and interest coverage is the all-`None` placeholder series instead of any
quotient. -/
theorem C6_zero_interest_no_coverage (t : DataFrame)
    (hne : (get_data_safe t ["Interest Expense"]).values ≠ [])
    (hz : ∀ v ∈ (get_data_safe t ["Interest Expense"]).values, v = num 0) :
    intCoverageOf t = none := by
  have habs : (intExpOf t).values = (get_data_safe t ["Interest Expense"]).values.map fabs := rfl
  have hz' : ∀ v ∈ (intExpOf t).values, v = num 0 := by
    rw [habs]
    intro v hv
    rw [List.mem_map] at hv
    obtain ⟨w, hw, rfl⟩ := hv
    rw [hz w hw]
    simp [fabs]
  have hlen : (intExpOf t).values ≠ [] := by
    rw [habs]
    simpa using hne
  have hfilter : (intExpOf t).values.filter (fun v => v ≠ nan) = (intExpOf t).values := by
    apply List.filter_eq_self.mpr
    intro v hv
    rw [hz' v hv]
    decide
  have hmean : (intExpOf t).mean = num 0 := by
    unfold Series.mean
    rw [hfilter]
    have hl : ¬((intExpOf t).values.length = 0) := by
      simpa [List.length_eq_zero] using hlen
    rw [if_neg hl, foldl_fadd_zeros _ hz' 0]
    have hcast : ((intExpOf t).values.length : ℚ) ≠ 0 := by
      exact_mod_cast hl
    simp [fdiv, hcast]
  unfold intCoverageOf
  rw [hmean]
  simp

/-- C6 witness: the amended theorem on a table whose interest-expense row
is the single value 0. -/
theorem C6_zero_interest_no_coverage_witness : intCoverageOf exZeroIntExpB = none :=
  C6_zero_interest_no_coverage exZeroIntExpB (by decide) (by decide)

/-! ### C7 — revenue growth series -/

/-- C7 counterexample: for revenue [100, 120] the code's growth series is
[NaN, 20] — `pct_change() * 100`, in percent and NaN-headed — not the
claimed [0, 0.2]: the first element is NaN rather than 0 and the scale is
percent rather than a plain fraction. -/
theorem C7_counterexample :
    revGrowthOf exGrowth = ⟨[1, 2], [FVal.nan, num 20]⟩ ∧
      revGrowthOf exGrowth ≠ ⟨[1, 2], [num 0, num (1 / 5)]⟩ := by
  have h : revGrowthOf exGrowth = ⟨[1, 2], [FVal.nan, num 20]⟩ := by
    simp [revGrowthOf, revOf, get_data_safe, DataFrame.hasRow, DataFrame.loc,
      Series.fillna0, Series.pct_change, Series.scale, FVal.fdiv, FVal.fmul, FVal.fadd,
      FVal.fsub, FVal.fneg, exGrowth, List.find?, List.any]
    norm_num
  refine ⟨h, ?_⟩
  rw [h]
  intro hcon
  have := congrArg Series.values hcon
  simp at this

/-- C7 (amended): revenue growth is `(revenue[t]/revenue[t-1] - 1) * 100`
(a percentage) for every period t ≥ 1, and the first period's growth is
NaN, not 0. -/
theorem C7_growth_formula (t : DataFrame) (i : ℕ) (a b : FVal)
    (ha : (revOf t).values[i]? = some a) (hb : (revOf t).values[i + 1]? = some b) :
    (revGrowthOf t).values[i + 1]? = some (fmul (fsub (fdiv b a) (num 1)) (num 100)) ∧
      (revGrowthOf t).values[0]? = some FVal.nan := by
  cases hvs : (revOf t).values with
  | nil =>
      rw [hvs] at ha
      simp at ha
  | cons v rest =>
      have hpct : (revOf t).pct_change.values =
          FVal.nan ::
            List.zipWith (fun cur prev => fsub (fdiv cur prev) (num 1)) rest (v :: rest) := by
        simp only [Series.pct_change, hvs]
      rw [hvs] at ha hb
      have hrest : rest[i]? = some b := by
        simpa using hb
      have hzip : (List.zipWith (fun cur prev => fsub (fdiv cur prev) (num 1))
          rest (v :: rest))[i]? = some (fsub (fdiv b a) (num 1)) :=
        List.getElem?_zipWith_eq_some.mpr ⟨b, a, hrest, ha, rfl⟩
      constructor
      · have := scale_getElem ((revOf t).pct_change) 100 (i + 1) (fsub (fdiv b a) (num 1))
          (by rw [hpct]; simpa using hzip)
        exact this
      · have := scale_getElem ((revOf t).pct_change) 100 0 FVal.nan (by rw [hpct]; simp)
        simpa [fmul] using this

/-- C7 witness: the amended theorem at revenue [100, 120]: growth is
[NaN, (120/100 - 1)·100]. -/
theorem C7_growth_formula_witness :
    (revGrowthOf exGrowth).values[1]? =
        some (fmul (fsub (fdiv (num 120) (num 100)) (num 1)) (num 100)) ∧
      (revGrowthOf exGrowth).values[0]? = some FVal.nan :=
  C7_growth_formula exGrowth 0 (num 100) (num 120) (by decide) (by decide)

/-! ### C8 — working capital is the plain CA − CL, not the operating formula -/


/-- C8 counterexample: on a balance sheet with current assets 100, current
liabilities 40 and cash 10, the code's working capital is 100 − 40 = 60
while the claimed operating formula gives (100 − 10) − (40 − 0) = 50: the
code computes the plain `ca - cl`, not the operating formula. -/
theorem C8_counterexample :
    get_working_capital_safe exWcCash = ⟨[1], [num 60]⟩ ∧
      owcSpecOf exWcCash = ⟨[1], [num 50]⟩ ∧
      get_working_capital_safe exWcCash ≠ owcSpecOf exWcCash := by
  have h1 : get_working_capital_safe exWcCash = ⟨[1], [num 60]⟩ := by
    simp [get_working_capital_safe, get_data_safe, DataFrame.hasRow, DataFrame.loc,
      Series.fillna0, Series.add, Series.sub, Series.binop, Series.sum,
      FVal.fadd, FVal.fsub, FVal.fneg, exWcCash, List.find?, List.any]
    norm_num
  have h2 : owcSpecOf exWcCash = ⟨[1], [num 50]⟩ := by
    simp [owcSpecOf, get_data_safe, DataFrame.hasRow, DataFrame.loc,
      Series.fillna0, Series.add, Series.sub, Series.binop, Series.sum,
      FVal.fadd, FVal.fsub, FVal.fneg, exWcCash, List.find?, List.any]
    norm_num
  refine ⟨h1, h2, ?_⟩
  rw [h1, h2]
  intro hcon
  have := congrArg Series.values hcon
  simp at this

/-- C8 (amended): when both resolved totals have non-zero sums, the code's
working-capital metric is exactly the plain
`current_assets - current_liabilities`; the operating formula net of cash
and short-term debt is never computed, so the two differ whenever cash or
short-term debt is non-zero. -/
theorem C8_plain_ca_minus_cl (bs : DataFrame)
    (hca : (get_data_safe bs ["Total Current Assets", "Current Assets"]).sum ≠ num 0)
    (hcl : (get_data_safe bs ["Total Current Liabilities", "Current Liabilities"]).sum ≠ num 0) :
    get_working_capital_safe bs =
      (get_data_safe bs ["Total Current Assets", "Current Assets"]).sub
        (get_data_safe bs ["Total Current Liabilities", "Current Liabilities"]) := by
  simp only [get_working_capital_safe]
  rw [if_neg hca, if_neg hcl]

/-- C8 witness: the amended theorem at `exWcCash` (cash 10, totals 100 and
40 with non-zero sums). -/
theorem C8_plain_ca_minus_cl_witness :
    get_working_capital_safe exWcCash =
      (get_data_safe exWcCash ["Total Current Assets", "Current Assets"]).sub
        (get_data_safe exWcCash ["Total Current Liabilities", "Current Liabilities"]) :=
  C8_plain_ca_minus_cl exWcCash
    (by simp [get_data_safe, DataFrame.hasRow, DataFrame.loc, Series.fillna0, Series.sum,
      FVal.fadd, exWcCash, List.find?, List.any])
    (by simp [get_data_safe, DataFrame.hasRow, DataFrame.loc, Series.fillna0, Series.sum,
      FVal.fadd, exWcCash, List.find?, List.any])

/-! ### C9 — cash-conversion-cycle denominators -/

/-- C9 counterexample: with revenue 100, COGS 50, receivables 20,
inventory 10 and payables 5, the code's C2C is
20/100·365 + 10/50·365 − 5/50·365 = 109.5 days, not the claimed
365·(20/100 + 10/100 − 5/100) = 91.25 days: inventory and payables are
divided by COGS, not revenue. -/
theorem C9_counterexample :
    c2cOf exC2cIs exC2cBs = ⟨[1], [num (219 / 2)]⟩ ∧
      c2cOf exC2cIs exC2cBs ≠ ⟨[1], [num (365 / 4)]⟩ ∧
      (365 : ℚ) * (20 / 100 + 10 / 100 - 5 / 100) = 365 / 4 := by
  have h : c2cOf exC2cIs exC2cBs = ⟨[1], [num (219 / 2)]⟩ := by
    simp [c2cOf, dsoOf, dioOf, dpoOf, cogsOrRev, cogsOf, revOf, receivablesOf, inventoryOf,
      payablesOf, get_data_safe, DataFrame.hasRow, DataFrame.loc, Series.fillna0,
      Series.div, Series.binop, Series.add, Series.sub, Series.scale, Series.mean, Series.sum,
      FVal.fdiv, FVal.fmul, FVal.fadd, FVal.fsub, FVal.fneg, exC2cIs, exC2cBs,
      List.find?, List.any]
    norm_num
  refine ⟨h, ?_, by norm_num⟩
  rw [h]
  intro hcon
  have := congrArg Series.values hcon
  simp at this
  exact absurd this (by norm_num)

/-- C9 (amended): position-wise, when the COGS series has non-zero mean the
cash-conversion cycle is
`receivables/revenue·365 + inventory/COGS·365 - payables/COGS·365`: only
the receivables component is divided by revenue; inventory and payables are
divided by COGS (falling back to revenue only when the COGS mean is 0). -/
theorem C9_c2c_denominators (ti bs : DataFrame) (i : ℕ)
    (hcols : bs.cols = ti.cols)
    (hm : (cogsOf ti).mean ≠ num 0)
    (rc rv iv cg py : ℚ)
    (hrec : (receivablesOf bs).values[i]? = some (num rc))
    (hrev : (revOf ti).values[i]? = some (num rv))
    (hinv : (inventoryOf bs).values[i]? = some (num iv))
    (hcogs : (cogsOf ti).values[i]? = some (num cg))
    (hpay : (payablesOf bs).values[i]? = some (num py))
    (hrv : rv ≠ 0) (hcg : cg ≠ 0) :
    (c2cOf ti bs).values[i]? =
      some (num (rc / rv * 365 + iv / cg * 365 - py / cg * 365)) := by
  have hcr : cogsOrRev ti = cogsOf ti := by
    unfold cogsOrRev
    rw [if_pos hm]
  have hiRec : (receivablesOf bs).index = (revOf ti).index := by
    unfold receivablesOf revOf
    rw [get_data_safe_index, get_data_safe_index, hcols]
  have hiInv : (inventoryOf bs).index = (cogsOrRev ti).index := by
    rw [hcr]
    unfold inventoryOf cogsOf
    rw [get_data_safe_index, get_data_safe_index, hcols]
  have hiPay : (payablesOf bs).index = (cogsOrRev ti).index := by
    rw [hcr]
    unfold payablesOf cogsOf
    rw [get_data_safe_index, get_data_safe_index, hcols]
  have d1 : (dsoOf ti bs).values[i]? = some (num (rc / rv * 365)) := by
    unfold dsoOf Series.div
    have := scale_getElem (Series.binop fdiv (receivablesOf bs) (revOf ti)) 365 i
      (fdiv (num rc) (num rv)) (binop_getElem fdiv _ _ hiRec i _ _ hrec hrev)
    rwa [show fmul (fdiv (num rc) (num rv)) (num 365) = num (rc / rv * 365) by
      simp [fdiv, fmul, hrv]] at this
  have d2 : (dioOf ti bs).values[i]? = some (num (iv / cg * 365)) := by
    unfold dioOf Series.div
    have hc : (cogsOrRev ti).values[i]? = some (num cg) := by
      rw [hcr]
      exact hcogs
    have := scale_getElem (Series.binop fdiv (inventoryOf bs) (cogsOrRev ti)) 365 i
      (fdiv (num iv) (num cg)) (binop_getElem fdiv _ _ hiInv i _ _ hinv hc)
    rwa [show fmul (fdiv (num iv) (num cg)) (num 365) = num (iv / cg * 365) by
      simp [fdiv, fmul, hcg]] at this
  have d3 : (dpoOf ti bs).values[i]? = some (num (py / cg * 365)) := by
    unfold dpoOf Series.div
    have hc : (cogsOrRev ti).values[i]? = some (num cg) := by
      rw [hcr]
      exact hcogs
    have := scale_getElem (Series.binop fdiv (payablesOf bs) (cogsOrRev ti)) 365 i
      (fdiv (num py) (num cg)) (binop_getElem fdiv _ _ hiPay i _ _ hpay hc)
    rwa [show fmul (fdiv (num py) (num cg)) (num 365) = num (py / cg * 365) by
      simp [fdiv, fmul, hcg]] at this
  have hiDso : (dsoOf ti bs).index = bs.cols := by
    unfold dsoOf Series.div
    rw [scale_index, binop_index_of_eq _ _ _ hiRec]
    unfold receivablesOf
    rw [get_data_safe_index]
  have hiDio : (dioOf ti bs).index = bs.cols := by
    unfold dioOf Series.div
    rw [scale_index, binop_index_of_eq _ _ _ hiInv]
    unfold inventoryOf
    rw [get_data_safe_index]
  have hiDpo : (dpoOf ti bs).index = bs.cols := by
    unfold dpoOf Series.div
    rw [scale_index, binop_index_of_eq _ _ _ hiPay]
    unfold payablesOf
    rw [get_data_safe_index]
  have hsum : ((dsoOf ti bs).add (dioOf ti bs)).values[i]? =
      some (num (rc / rv * 365 + iv / cg * 365)) := by
    unfold Series.add
    have := binop_getElem fadd _ _ (by rw [hiDso, hiDio]) i _ _ d1 d2
    rwa [show fadd (num (rc / rv * 365)) (num (iv / cg * 365)) =
      num (rc / rv * 365 + iv / cg * 365) by simp [fadd]] at this
  have hiSum : ((dsoOf ti bs).add (dioOf ti bs)).index = bs.cols := by
    unfold Series.add
    rw [binop_index_of_eq _ _ _ (by rw [hiDso, hiDio]), hiDso]
  unfold c2cOf Series.sub
  have := binop_getElem fsub _ _ (by rw [hiSum, hiDpo]) i _ _ hsum d3
  rwa [show fsub (num (rc / rv * 365 + iv / cg * 365)) (num (py / cg * 365)) =
    num (rc / rv * 365 + iv / cg * 365 - py / cg * 365) by
      simp [fsub, fadd, fneg]
      ring] at this

/-- C9 witness: the amended theorem at the concrete tables (revenue 100,
COGS 50, receivables 20, inventory 10, payables 5, period axis [1]). -/
theorem C9_c2c_denominators_witness :
    (c2cOf exC2cIs exC2cBs).values[0]? =
      some (num ((20 : ℚ) / 100 * 365 + 10 / 50 * 365 - 5 / 50 * 365)) :=
  C9_c2c_denominators exC2cIs exC2cBs 0 (by decide)
    (by
      simp [cogsOf, get_data_safe, DataFrame.hasRow, DataFrame.loc, Series.fillna0,
        Series.mean, FVal.fadd, FVal.fdiv, exC2cIs, List.find?, List.any])
    20 100 10 50 5 (by decide) (by decide) (by decide) (by decide) (by decide)
    (by norm_num) (by norm_num)

/-! ### C10 — absolute value of interest expense -/


theorem withIE_find_ie (cols : List ℚ) (pre post : List (String × List FVal)) (v : List FVal)
    (hpre : ∀ r ∈ pre, r.1 ≠ "Interest Expense") :
    (withIE cols pre post v).rows.find? (fun r => r.1 = "Interest Expense") =
      some ("Interest Expense", v) := by
  show (pre ++ ("Interest Expense", v) :: post).find? (fun r => r.1 = "Interest Expense") = _
  rw [List.find?_append]
  have h1 : pre.find? (fun r => r.1 = "Interest Expense") = none := by
    rw [List.find?_eq_none]
    intro r hr
    simp [hpre r hr]
  rw [h1, List.find?_cons_of_pos _ (by simp)]
  rfl

theorem withIE_has_ie (cols : List ℚ) (pre post : List (String × List FVal)) (v : List FVal) :
    (withIE cols pre post v).hasRow "Interest Expense" = true := by
  apply List.any_eq_true.mpr
  exact ⟨("Interest Expense", v), by simp [withIE], by simp⟩

/-- The resolved (absolute) interest-expense series of a table split
around its `Interest Expense` row: the row's values, NaN filled to 0, in
absolute value. -/
theorem intExpOf_withIE (cols : List ℚ) (pre post : List (String × List FVal)) (v : List FVal)
    (hpre : ∀ r ∈ pre, r.1 ≠ "Interest Expense") :
    intExpOf (withIE cols pre post v) =
      ⟨cols, (v.map (fun x => if x = nan then num 0 else x)).map fabs⟩ := by
  unfold intExpOf
  rw [get_data_safe_cons_found _ _ _ (withIE_has_ie cols pre post v)]
  unfold DataFrame.loc
  rw [withIE_find_ie cols pre post v hpre]
  rfl

/-- The `EBIT` lookup never reads the `Interest Expense` row, so it is
insensitive to that row's values. -/
theorem ebitOf_withIE (cols : List ℚ) (pre post : List (String × List FVal)) (v w : List FVal) :
    ebitOf (withIE cols pre post v) = ebitOf (withIE cols pre post w) := by
  have hAny : ∀ (u : List FVal),
      (withIE cols pre post u).hasRow "EBIT" =
        (pre.any (fun r => r.1 = "EBIT") || post.any (fun r => r.1 = "EBIT")) := by
    intro u
    simp [withIE, DataFrame.hasRow, List.any_append]
  have hFind : ∀ (u : List FVal),
      (withIE cols pre post u).rows.find? (fun r => r.1 = "EBIT") =
        ((pre.find? (fun r => r.1 = "EBIT")).or (post.find? (fun r => r.1 = "EBIT"))) := by
    intro u
    show (pre ++ ("Interest Expense", u) :: post).find? (fun r => r.1 = "EBIT") = _
    rw [List.find?_append, List.find?_cons_of_neg _ (by simp)]
  by_cases hE : (pre.any (fun r => r.1 = "EBIT") || post.any (fun r => r.1 = "EBIT")) = true
  · unfold ebitOf
    rw [get_data_safe_cons_found _ _ _ (by rw [hAny v]; exact hE),
      get_data_safe_cons_found _ _ _ (by rw [hAny w]; exact hE)]
    unfold DataFrame.loc
    rw [hFind v, hFind w]
    rfl
  · have hE' : (pre.any (fun r => r.1 = "EBIT") || post.any (fun r => r.1 = "EBIT")) = false := by
      cases h : (pre.any (fun r => r.1 = "EBIT") || post.any (fun r => r.1 = "EBIT")) with
      | true => exact absurd h hE
      | false => rfl
    unfold ebitOf
    rw [get_data_safe_all_absent _ _ (by
        intro k hk
        simp only [List.mem_singleton] at hk
        subst hk
        rw [hAny v]
        exact hE'),
      get_data_safe_all_absent _ _ (by
        intro k hk
        simp only [List.mem_singleton] at hk
        subst hk
        rw [hAny w]
        exact hE')]
    rfl

/-- Filling NaN to 0 then taking absolute values is insensitive to
negating every cell. -/
theorem fillabs_map_fneg (v : List FVal) :
    ((v.map fneg).map (fun x => if x = nan then num 0 else x)).map fabs =
      (v.map (fun x => if x = nan then num 0 else x)).map fabs := by
  induction v with
  | nil => rfl
  | cons x xs ih =>
      simp only [List.map_cons, List.map_map] at *
      rw [ih]
      cases x <;> simp [fneg, fabs]

/-- C10: the resolved interest-expense series is the element-wise absolute
value of the (NaN-filled) `Interest Expense` row, so negating the vendor's
sign convention for that row leaves interest coverage unchanged; and when
coverage is computed, a positive interest-expense entry makes the coverage
value carry exactly the sign of EBIT. -/
theorem C10_interest_sign_handling (cols : List ℚ) (pre post : List (String × List FVal))
    (v : List FVal) (hpre : ∀ r ∈ pre, r.1 ≠ "Interest Expense") :
    intExpOf (withIE cols pre post v) =
        ⟨cols, (v.map (fun x => if x = nan then num 0 else x)).map fabs⟩ ∧
      intCoverageOf (withIE cols pre post v) =
        intCoverageOf (withIE cols pre post (v.map fneg)) ∧
      (∀ (s : Series) (i : ℕ) (e x : ℚ), intCoverageOf (withIE cols pre post v) = some s →
        (ebitOf (withIE cols pre post v)).values[i]? = some (num e) →
        (intExpOf (withIE cols pre post v)).values[i]? = some (num x) →
        0 < x →
        ∃ q, s.values[i]? = some (num q) ∧ (0 < q ↔ 0 < e) ∧ (q < 0 ↔ e < 0)) := by
  have hpre' : ∀ r ∈ pre, r.1 ≠ "Interest Expense" := hpre
  have hie := intExpOf_withIE cols pre post v hpre
  have hieNeg := intExpOf_withIE cols pre post (v.map fneg) hpre'
  have hieEq : intExpOf (withIE cols pre post v) =
      intExpOf (withIE cols pre post (v.map fneg)) := by
    rw [hie, hieNeg, fillabs_map_fneg]
  have hebitEq := ebitOf_withIE cols pre post v (v.map fneg)
  refine ⟨hie, ?_, ?_⟩
  · unfold intCoverageOf
    rw [hieEq, hebitEq]
  · intro s i e x hs hebit hix hx
    have hcond : (intExpOf (withIE cols pre post v)).mean ≠ num 0 ∧
        s = (ebitOf (withIE cols pre post v)).div (intExpOf (withIE cols pre post v)) := by
      unfold intCoverageOf at hs
      by_cases hm : (intExpOf (withIE cols pre post v)).mean ≠ num 0
      · rw [if_pos hm] at hs
        exact ⟨hm, (Option.some.injEq _ _).mp hs.symm⟩
      · rw [if_neg hm] at hs
        cases hs
    obtain ⟨-, rfl⟩ := hcond
    have hidx : (ebitOf (withIE cols pre post v)).index =
        (intExpOf (withIE cols pre post v)).index := by
      unfold ebitOf intExpOf Series.sAbs
      rw [get_data_safe_index]
      show _ = (get_data_safe (withIE cols pre post v) ["Interest Expense"]).index
      rw [get_data_safe_index]
    have hdv : ((ebitOf (withIE cols pre post v)).div
        (intExpOf (withIE cols pre post v))).values[i]? = some (fdiv (num e) (num x)) := by
      unfold Series.div
      exact binop_getElem fdiv _ _ hidx i _ _ hebit hix
    refine ⟨e / x, ?_, ?_, ?_⟩
    · rwa [show fdiv (num e) (num x) = num (e / x) by simp [fdiv, hx.ne']] at hdv
    · rw [div_pos_iff]
      constructor
      · rintro (⟨he, -⟩ | ⟨-, hx'⟩)
        · exact he
        · exact absurd hx (asymm hx')
      · intro he
        exact Or.inl ⟨he, hx⟩
    · rw [div_neg_iff]
      constructor
      · rintro (⟨-, hx'⟩ | ⟨he, -⟩)
        · exact absurd hx (asymm hx')
        · exact he
      · intro he
        exact Or.inr ⟨he, hx⟩

/-- C10 witness: coverage for interest expense reported as [-2, -4] equals
coverage for the same row reported as [2, 4]. -/
theorem C10_interest_sign_handling_witness :
    intCoverageOf (withIE [1, 2] [("EBIT", [num 50, num 60])] [] [num (-2), num (-4)]) =
      intCoverageOf (withIE [1, 2] [("EBIT", [num 50, num 60])] [] [num 2, num 4]) := by
  have h := (C10_interest_sign_handling [1, 2] [("EBIT", [num 50, num 60])] []
    [num (-2), num (-4)] (by decide)).2.1
  have hmap : ([num (-2), num (-4)] : List FVal).map fneg = [num 2, num 4] := by
    simp [fneg]
  rw [hmap] at h
  exact h

/-! ### C2 — what aborts the pipeline -/

/-- C2 counterexample: with a one-period income table (nonempty after
sorting and truncation) but an empty cash-flow table, the whole analysis
aborts — so a zero-column income table is not the only aborting condition.
(There is also no `InsufficientDataError` anywhere in the source: the abort
is an `IndexError` swallowed by the broad `except` handler.) -/
theorem C2_counterexample :
    isOkE (run_full_analysis exIncomeOne exEmptyDF exBsOne) = false ∧
      ((exIncomeOne.sortCols).lastCols 10).cols ≠ [] := by
  constructor <;> decide

/-- C2 (amended): the pipeline aborts — the broad handler replaces the
report with an error banner — exactly when the income table, the cash-flow
table, or the balance table has zero columns after sorting and truncation:
a zero-column income table always aborts (the claim's "if" direction), but
it is not the unique aborting condition, and the failure is a caught
`IndexError` from the latest-period reads, not an `InsufficientDataError`
(no such exception class exists in the source). -/
theorem C2_abort_conditions (a b c : DataFrame) (ha : a.WF) (hb : b.WF) (hc : c.WF) :
    isOkE (run_full_analysis a b c) = true ↔
      (a.cols ≠ [] ∧ b.cols ≠ [] ∧ c.cols ≠ []) := by
  have hwfA := lastCols_WF _ 10 (sortCols_WF _ ha)
  have hwfB := lastCols_WF _ 10 (sortCols_WF _ hb)
  have hwfC := lastCols_WF _ 10 (sortCols_WF _ hc)
  have htrA : ((a.sortCols).lastCols 10).cols = [] ↔ a.cols = [] :=
    not_iff_not.mp (trunc_cols_ne_nil a)
  have htrB : ((b.sortCols).lastCols 10).cols = [] ↔ b.cols = [] :=
    not_iff_not.mp (trunc_cols_ne_nil b)
  have htrC : ((c.sortCols).lastCols 10).cols = [] ↔ c.cols = [] :=
    not_iff_not.mp (trunc_cols_ne_nil c)
  have hNi : (netIncomeOf ((a.sortCols).lastCols 10)).values = [] ↔ a.cols = [] := by
    unfold netIncomeOf
    rw [get_data_safe_values_nil_iff _ _ hwfA, htrA]
  have hOcf : (get_data_safe ((b.sortCols).lastCols 10) ["Operating Cash Flow"]).values = []
      ↔ b.cols = [] := by
    rw [get_data_safe_values_nil_iff _ _ hwfB, htrB]
  have hFcf : ((get_data_safe ((b.sortCols).lastCols 10) ["Operating Cash Flow"]).add
      (get_data_safe ((b.sortCols).lastCols 10) ["Capital Expenditure"])).values = []
      ↔ b.cols = [] := by
    unfold Series.add
    rw [binop_get_data_safe_nil_iff fadd _ _ _ hwfB, htrB]
  have hEm : (equityMultOf ((c.sortCols).lastCols 10)).values = [] ↔ c.cols = [] := by
    unfold equityMultOf assetsOf equityOf Series.div
    rw [binop_get_data_safe_nil_iff fdiv _ _ _ hwfC, htrC]
  have hCr : (currentRatioOf ((c.sortCols).lastCols 10)).values = [] ↔ c.cols = [] := by
    unfold currentRatioOf Series.div
    rw [binop_get_data_safe_nil_iff fdiv _ _ _ hwfC, htrC]
  rcases hic : intCoverageOf ((a.sortCols).lastCols 10) with _ | s
  · simp only [run_full_analysis, hic, isOkE_bind_iff, lastE_eq_ok_iff, isOkE_pure,
      except_bind_eq_ok_iff, except_pure_eq_ok_iff]
    constructor
    · rintro ⟨v, hv, v1, hv1, v2, hv2, v3, hv3, v4, hv4, hrest⟩
      refine ⟨fun hae => ?_, fun hbe => ?_, fun hce => ?_⟩
      · rw [hNi.mpr hae] at hv1
        simp at hv1
      · rw [hOcf.mpr hbe] at hv
        simp at hv
      · rw [hEm.mpr hce] at hv4
        simp at hv4
    · rintro ⟨hna, hnb, hnc⟩
      obtain ⟨v, hv⟩ := getLast?_some_of_ne_nil _ (fun he => hnb (hOcf.mp he))
      obtain ⟨v1, hv1⟩ := getLast?_some_of_ne_nil _ (fun he => hna (hNi.mp he))
      obtain ⟨v2, hv2⟩ := getLast?_some_of_ne_nil _ (fun he => hnb (hFcf.mp he))
      obtain ⟨v4, hv4⟩ := getLast?_some_of_ne_nil _ (fun he => hnc (hEm.mp he))
      obtain ⟨v6, hv6⟩ := getLast?_some_of_ne_nil _ (fun he => hnc (hCr.mp he))
      refine ⟨v, hv, v1, hv1, v2, hv2, v1, hv1, v4, hv4, ?_⟩
      have hAne : ((a.sortCols).lastCols 10).cols ≠ [] := fun he => hna (htrA.mp he)
      rw [if_neg (by simpa [List.isEmpty_iff] using hAne)]
      simp only [isOkE_bind_iff, lastE_eq_ok_iff, isOkE_pure, except_pure_eq_ok_iff]
      exact ⟨none, rfl, v6, hv6, trivial⟩
  · have hs : s = (ebitOf ((a.sortCols).lastCols 10)).div (intExpOf ((a.sortCols).lastCols 10)) :=
      intCoverageOf_eq_some _ _ hic
    have hS : s.values = [] ↔ a.cols = [] := by
      rw [hs, intCoverage_series_nil_iff _ hwfA, htrA]
    simp only [run_full_analysis, hic, isOkE_bind_iff, lastE_eq_ok_iff, isOkE_pure,
      except_bind_eq_ok_iff, except_pure_eq_ok_iff]
    constructor
    · rintro ⟨v, hv, v1, hv1, v2, hv2, v3, hv3, v4, hv4, hrest⟩
      refine ⟨fun hae => ?_, fun hbe => ?_, fun hce => ?_⟩
      · rw [hNi.mpr hae] at hv1
        simp at hv1
      · rw [hOcf.mpr hbe] at hv
        simp at hv
      · rw [hEm.mpr hce] at hv4
        simp at hv4
    · rintro ⟨hna, hnb, hnc⟩
      obtain ⟨v, hv⟩ := getLast?_some_of_ne_nil _ (fun he => hnb (hOcf.mp he))
      obtain ⟨v1, hv1⟩ := getLast?_some_of_ne_nil _ (fun he => hna (hNi.mp he))
      obtain ⟨v2, hv2⟩ := getLast?_some_of_ne_nil _ (fun he => hnb (hFcf.mp he))
      obtain ⟨v4, hv4⟩ := getLast?_some_of_ne_nil _ (fun he => hnc (hEm.mp he))
      obtain ⟨v5, hv5⟩ := getLast?_some_of_ne_nil _ (fun he => hna (hS.mp he))
      obtain ⟨v6, hv6⟩ := getLast?_some_of_ne_nil _ (fun he => hnc (hCr.mp he))
      exact ⟨v, hv, v1, hv1, v2, hv2, v1, hv1, v4, hv4, v5, hv5, some v5, rfl, v6, hv6, trivial⟩

/-- C2 witness: the amended theorem on three well-formed one-period
tables, whose analysis completes. -/
theorem C2_abort_conditions_witness :
    isOkE (run_full_analysis exIncomeOne exCfOne exBsOne) = true :=
  (C2_abort_conditions exIncomeOne exCfOne exBsOne (by decide) (by decide) (by decide)).mpr
    (by decide)

end StockAnalysis
